import Mathlib

/-!
Verification of the typed-tasks scheduling and deduplication engine.

The definitions below are a shallow embedding of the source:
`src/scheduler.ts` (task-name generation, window-boundary computation,
schedule-time resolution, and the retried submission wrapped in p-retry),
`src/factory.ts` (registry population in `createTypedTasks`) and
`src/task-registry.ts` (the queue-name to config map).

JavaScript `number` values are modelled as `Int`; `Math.floor(a / b)` is
floor division, which is the `Int` division of Lean (`Int.ediv`).  Optional
values (`undefined`) are `Option`, and JavaScript truthiness tests on
optional numbers, strings and booleans are modelled explicitly.  The MD5
digest (from `node:crypto`) and the `taskPath` formatter (from
`CloudTasksClient`) are external collaborators: the digest is a function
parameter, the path formatter follows the documented resource format.
-/

namespace TypedTasks

/-- Truthiness of `x` followed by `x > 0` for an optional JS number, as in
`!!x && x > 0` (scheduler.ts lines 316-317, 327-331, 346, 349). -/
def intOptPos : Option Int → Bool
  | none => false
  | some v => (v != 0) && decide (0 < v)

/-- Truthiness of an optional JS number on its own, as in
`if (scheduleTimeSeconds)` (scheduler.ts line 399): `0` is falsy. -/
def intOptTruthy : Option Int → Bool
  | none => false
  | some v => v != 0

/-- Truthiness of an optional JS string, as in `!finalTaskName` and
`if (finalTaskName)` (scheduler.ts lines 321, 327, 389): the empty string
and `undefined` are falsy. -/
def strTruthy : Option String → Bool
  | none => false
  | some s => s != ""

/-- Truthiness of an optional JS boolean, as in `!!taskConfig?.useDeduplication`
(scheduler.ts line 316). -/
def boolTruthy : Option Bool → Bool
  | none => false
  | some b => b

/- Structured payload values (the serializable data accepted by a scheduler
call).  Object fields and array elements are their own inductives so all
recursion is structural. -/
mutual

inductive Json where
  | null
  | bool (b : Bool)
  | num (n : Int)
  | str (s : String)
  | arr (elems : JsonList)
  | obj (fields : JsonFields)

inductive JsonList where
  | nil
  | cons (head : Json) (tail : JsonList)

inductive JsonFields where
  | nil
  | cons (key : String) (value : Json) (tail : JsonFields)

end

/-- JSON string escaping for one character, per `JSON.stringify`. -/
def jsonEscapeChar (c : Char) : String :=
  if c = '\"' then "\\\""
  else if c = '\\' then "\\\\"
  else if c = '\n' then "\\n"
  else if c = '\r' then "\\r"
  else if c = '\t' then "\\t"
  else String.singleton c

/-- A JSON string literal: quotes around the escaped characters. -/
def jsonQuote (s : String) : String :=
  "\"" ++ String.join (s.toList.map jsonEscapeChar) ++ "\""

/- `JSON.stringify`, the canonical serialization used by the scheduler for
hashing and for the request body (scheduler.ts lines 250, 359). -/
mutual

def Json.stringify : Json → String
  | Json.null => "null"
  | Json.bool b => if b then "true" else "false"
  | Json.num n => toString n
  | Json.str s => jsonQuote s
  | Json.arr es => "[" ++ stringifyElems es ++ "]"
  | Json.obj fs => "\x7b" ++ stringifyMembers fs ++ "\x7d"

def stringifyElems : JsonList → String
  | JsonList.nil => ""
  | JsonList.cons j JsonList.nil => Json.stringify j
  | JsonList.cons j rest => Json.stringify j ++ "," ++ stringifyElems rest

def stringifyMembers : JsonFields → String
  | JsonFields.nil => ""
  | JsonFields.cons k v JsonFields.nil => jsonQuote k ++ ":" ++ Json.stringify v
  | JsonFields.cons k v rest =>
      jsonQuote k ++ ":" ++ Json.stringify v ++ "," ++ stringifyMembers rest

end

/-- `error.message.includes(pat)`: substring test on strings
(scheduler.ts lines 417, 444). -/
def containsSub (s pat : String) : Bool :=
  (List.range (s.length + 1)).any (fun i => List.isPrefixOf pat.toList (s.toList.drop i))

/-- Per-queue scheduler options stored in the task registry
(`TaskConfig` / `TaskSchedulerOptions`, task-registry.ts and types.ts). -/
structure TaskConfig where
  deduplicationWindowSeconds : Option Int
  useDeduplication : Option Bool
deriving DecidableEq

/-- `taskRegistry.get(queueName)` on the association-list model of the
registry `Map` (scheduler.ts line 303). -/
def registryGet : List (String × TaskConfig) → String → Option TaskConfig
  | [], _ => none
  | (k, c) :: rest, q => if k = q then some c else registryGet rest q

/-- `taskRegistry.set(queueName, config)`: overwrite an existing key or
append (factory.ts line 92). -/
def registrySet : List (String × TaskConfig) → String → TaskConfig → List (String × TaskConfig)
  | [], q, c => [(q, c)]
  | (k, c0) :: rest, q, c =>
      if k = q then (k, c) :: rest else (k, c0) :: registrySet rest q c

/-- The config stored by `createTypedTasks` for one definition with options
(factory.ts lines 86-95): `useDeduplication` is forced to `true` whenever
the deduplication window is positive. -/
def mkTaskConfig (opts : TaskConfig) : TaskConfig :=
  { deduplicationWindowSeconds := opts.deduplicationWindowSeconds
    useDeduplication :=
      some (boolTruthy opts.useDeduplication || intOptPos opts.deduplicationWindowSeconds) }

/-- The `forEach` walk over the caller-supplied definitions (factory.ts
lines 83-97), threading the registry being populated: a definition is a
queue name with either a bare schema (`none`) or scheduler options
(`some opts`); only the latter are registered. -/
def buildRegistryFrom (reg : List (String × TaskConfig)) :
    List (String × Option TaskConfig) → List (String × TaskConfig)
  | [] => reg
  | (q, some opts) :: rest => buildRegistryFrom (registrySet reg q (mkTaskConfig opts)) rest
  | (_, none) :: rest => buildRegistryFrom reg rest

/-- Registry population in `createTypedTasks`, starting from the empty
registry created by `createTaskRegistry` (task-registry.ts line 13). -/
def buildRegistry (definitions : List (String × Option TaskConfig)) : List (String × TaskConfig) :=
  buildRegistryFrom [] definitions

/-- `Math.floor(currentTime / (deduplicationWindowSeconds * 1000))`
(scheduler.ts lines 257-259 and 334-336). -/
def windowBoundary (now w : Int) : Int :=
  now / (w * 1000)

/-- The string hashed by `generateTaskNameFromPayload`: the payload itself
when it is a plain string, otherwise its JSON serialization
(scheduler.ts line 250). -/
def deriveDataString : Json → String
  | Json.str s => s
  | v => Json.stringify v

/-- `generateTaskNameFromPayload` (scheduler.ts lines 246-264), with the MD5
digest and the current time as explicit inputs. -/
def generateTaskNameFromPayload (md5 : String → String) (now : Int) (data : Json)
    (deduplicationWindowSeconds : Option Int) : String :=
  let dataString := deriveDataString data
  let baseHash := md5 dataString
  if intOptPos deduplicationWindowSeconds then
    baseHash ++ "-" ++ toString (windowBoundary now (deduplicationWindowSeconds.getD 0))
  else
    baseHash

/-- `taskConfig?.deduplicationWindowSeconds` (scheduler.ts line 304). -/
def configWindow (cfg : Option TaskConfig) : Option Int :=
  cfg.bind (fun c => c.deduplicationWindowSeconds)

/-- The `useDeduplication` flag recomputed on every scheduling call
(scheduler.ts lines 315-317). -/
def effectiveUseDeduplication (cfg : Option TaskConfig) : Bool :=
  boolTruthy (cfg.bind (fun c => c.useDeduplication)) || intOptPos (configWindow cfg)

/-- The `finalTaskName` variable after the name-resolution branch
(scheduler.ts lines 320-338). -/
def resolveFinalTaskName (md5 : String → String) (now : Int) (data : Json)
    (deduplicationWindowSeconds : Option Int) (useDeduplication : Bool)
    (taskName : Option String) : Option String :=
  let finalTaskName := taskName
  if useDeduplication && !(strTruthy finalTaskName) then
    some (generateTaskNameFromPayload md5 now data deduplicationWindowSeconds)
  else if strTruthy finalTaskName && intOptPos deduplicationWindowSeconds then
    finalTaskName.map (fun n =>
      n ++ "-" ++ toString (windowBoundary now (deduplicationWindowSeconds.getD 0)))
  else
    finalTaskName

/-- The task identity actually submitted: `task.name` is only set when
`finalTaskName` is truthy (scheduler.ts lines 389-396), so a falsy
resolved name means no identity. -/
def submittedIdentity (md5 : String → String) (now : Int) (cfg : Option TaskConfig)
    (data : Json) (taskName : Option String) : Option String :=
  let finalTaskName :=
    resolveFinalTaskName md5 now data (configWindow cfg) (effectiveUseDeduplication cfg) taskName
  if strTruthy finalTaskName then finalTaskName else none

/-- `scheduleTimeSeconds` (scheduler.ts lines 346-352): a positive
deduplication window always wins over a caller delay. -/
def resolveScheduleTimeSeconds (now : Int)
    (deduplicationWindowSeconds delaySeconds : Option Int) : Option Int :=
  if intOptPos deduplicationWindowSeconds then
    some (now / 1000 + deduplicationWindowSeconds.getD 0)
  else if intOptPos delaySeconds then
    some (now / 1000 + delaySeconds.getD 0)
  else
    none

/-- The `scheduleTime.seconds` field actually set on the task:
`if (scheduleTimeSeconds)` is a truthiness test (scheduler.ts lines 399-403). -/
def submittedScheduleTime (now : Int)
    (deduplicationWindowSeconds delaySeconds : Option Int) : Option Int :=
  let r := resolveScheduleTimeSeconds now deduplicationWindowSeconds delaySeconds
  if intOptTruthy r then r else none

/-- `tasksClient.taskPath` resource format (external collaborator; the
documented fully-qualified task name format, also used by the test mock). -/
def taskPath (projectId region queue name : String) : String :=
  "projects/" ++ projectId ++ "/locations/" ++ region ++ "/queues/" ++ queue ++
    "/tasks/" ++ name

/-- JS template interpolation of a possibly-undefined string. -/
def jsTemplateOptString : Option String → String
  | some s => s
  | none => "undefined"

/-- Caller options of a scheduling call (scheduler.ts line 301). -/
structure ScheduleOptions where
  taskName : Option String
  delaySeconds : Option Int

/-- A thrown JS `Error` value: only the message is inspected by the
scheduler; name and code are carried to show they are ignored. -/
structure JsError where
  name : String
  code : Option Int
  message : String
deriving DecidableEq

inductive Severity where
  | info
  | warn
  | error
deriving DecidableEq

structure LogEntry where
  severity : Severity
  message : String
deriving DecidableEq

/-- Result of the p-retry loop: the settled promise, the number of the last
attempt made, and the warnings emitted by `onFailedAttempt`. -/
structure RetryOutcome where
  result : Except JsError Unit
  attempts : Nat
  warns : List LogEntry

/-- The task submitted on every attempt (scheduler.ts lines 361-403). -/
structure Task where
  name : Option String
  url : String
  bodyData : String
  scheduleTime : Option Int
deriving DecidableEq

/-- Outcome of one scheduling call: the submitted task, the caller-visible
result, the number of attempts, and the console log. -/
structure ScheduleOutcome where
  task : Task
  result : Except JsError Unit
  attempts : Nat
  logs : List LogEntry

/-- The p-retry loop around `createTask` with the inner conflict check
(scheduler.ts lines 409-440, p-retry 6 semantics): a failed attempt whose
error message contains `ALREADY_EXISTS` throws `AbortError(error.message)`,
which makes p-retry stop at once and reject with a plain `Error` carrying
that message, without invoking `onFailedAttempt`; any other error is
retried until `retriesLeft` runs out, logging one warning per failed
attempt, and the last error is rejected. -/
def pRetryLoop (queueName : String) (createTask : Nat → Option JsError) :
    Nat → Nat → RetryOutcome
  | attemptNumber, retriesLeft =>
    match createTask attemptNumber with
    | none => ⟨Except.ok (), attemptNumber, []⟩
    | some e =>
      if containsSub e.message "ALREADY_EXISTS" then
        ⟨Except.error ⟨"Error", none, e.message⟩, attemptNumber, []⟩
      else
        let warnEntry : LogEntry :=
          ⟨Severity.warn,
            "Task scheduling attempt " ++ toString attemptNumber ++ " failed for " ++
              queueName ++ ". " ++ toString retriesLeft ++ " retries left."⟩
        match retriesLeft with
        | 0 => ⟨Except.error e, attemptNumber, [warnEntry]⟩
        | r + 1 =>
          let rest := pRetryLoop queueName createTask (attemptNumber + 1) r
          ⟨rest.result, rest.attempts, warnEntry :: rest.warns⟩

/-- One scheduling call (the body of the function returned by
`createSchedulerFactory`, scheduler.ts lines 299-460): resolve the config,
the final task name and the schedule time, build the task, run the retried
submission with `retries: 5`, and convert an `ALREADY_EXISTS` rejection
into caller-visible success logged at info severity, while any other
rejection is logged at error severity and rethrown. -/
def scheduleTask (md5 : String → String) (projectId region : String)
    (taskRegistry : List (String × TaskConfig)) (queueName : String) (now : Int)
    (data : Json) (options : Option ScheduleOptions)
    (createTask : Nat → Option JsError) : ScheduleOutcome :=
  let taskConfig := registryGet taskRegistry queueName
  let deduplicationWindowSeconds := configWindow taskConfig
  let callerTaskName := options.bind (fun o => o.taskName)
  let finalTaskName :=
    resolveFinalTaskName md5 now data deduplicationWindowSeconds
      (effectiveUseDeduplication taskConfig) callerTaskName
  let task : Task :=
    { name := (submittedIdentity md5 now taskConfig data callerTaskName).map
        (taskPath projectId region queueName)
      url := "https://" ++ region ++ "-" ++ projectId ++ ".cloudfunctions.net/" ++ queueName
      bodyData := Json.stringify (Json.obj (JsonFields.cons "data" data JsonFields.nil))
      scheduleTime :=
        submittedScheduleTime now deduplicationWindowSeconds
          (options.bind (fun o => o.delaySeconds)) }
  let retry := pRetryLoop queueName createTask 1 5
  match retry.result with
  | Except.ok _ => ⟨task, Except.ok (), retry.attempts, retry.warns⟩
  | Except.error e =>
    if containsSub e.message "ALREADY_EXISTS" then
      ⟨task, Except.ok (), retry.attempts,
        retry.warns ++ [⟨Severity.info, "Skipping task " ++ jsTemplateOptString finalTaskName⟩]⟩
    else
      ⟨task, Except.error e, retry.attempts,
        retry.warns ++ [⟨Severity.error,
          "Failed to schedule task " ++ queueName ++ " after multiple retries: " ++ e.message⟩]⟩

/-- The window suffix as the specification states it (section 4.3, cases 4
and 5): appended exactly when the window is positive.  Spec-side
definition, to be compared with the code-side resolver. -/
def specWindowSuffix (now : Int) (w : Option Int) : String :=
  if intOptPos w then "-" ++ toString (windowBoundary now (w.getD 0)) else ""

end TypedTasks


namespace TypedTasks

/-- A string of length zero is the empty string. -/
lemma eq_empty_of_length_zero (s : String) (h : s.length = 0) : s = "" := by
  cases s with
  | mk l =>
    cases l with
    | nil => rfl
    | cons a as => simp [String.length] at h

/-- Appending to a nonempty string on the left keeps it nonempty. -/
lemma append_ne_empty_left (s t : String) (h : s ≠ "") : s ++ t ≠ "" := by
  intro he
  have hl := congrArg String.length he
  rw [String.length_append] at hl
  have hz : s.length = 0 := by
    have h0 : ("" : String).length = 0 := rfl
    omega
  exact h (eq_empty_of_length_zero s hz)

/-- Appending a nonempty string on the right gives a nonempty string. -/
lemma append_ne_empty_right (s t : String) (h : t ≠ "") : s ++ t ≠ "" := by
  intro he
  have hl := congrArg String.length he
  rw [String.length_append] at hl
  have hz : t.length = 0 := by
    have h0 : ("" : String).length = 0 := rfl
    omega
  exact h (eq_empty_of_length_zero t hz)

/-- JS truthiness of a present string is exactly nonemptiness. -/
lemma strTruthy_some_iff (s : String) : strTruthy (some s) = true ↔ s ≠ "" := by
  simp [strTruthy, bne_iff_ne]

lemma strTruthy_eq_true (s : String) (h : s ≠ "") : strTruthy (some s) = true :=
  (strTruthy_some_iff s).mpr h

/-- Claim C1: dedup policy resolution.  With `e` the effective dedup flag
recomputed at each call (`useDeduplication OR window > 0`, absent registry
entries defaulting everything to false/zero), the submitted task identity
is: absent when `e` is false and no (truthy) name was given; exactly the
caller name, unsuffixed, when `e` is false; the MD5 fingerprint of the
payload with the window-boundary suffix appended iff the window is
positive, when `e` is true and no name was given; and the caller name with
the same suffix when `e` is true and a name was given. -/
theorem dedup_policy_resolution
    (md5 : String → String) (now : Int) (cfg : Option TaskConfig) (data : Json)
    (hm : md5 (deriveDataString data) ≠ "") :
    (effectiveUseDeduplication cfg = false →
        submittedIdentity md5 now cfg data none = none) ∧
    (∀ s, s ≠ "" → effectiveUseDeduplication cfg = false →
        submittedIdentity md5 now cfg data (some s) = some s) ∧
    (effectiveUseDeduplication cfg = true →
        submittedIdentity md5 now cfg data none =
          some (md5 (deriveDataString data) ++ specWindowSuffix now (configWindow cfg))) ∧
    (∀ s, s ≠ "" → effectiveUseDeduplication cfg = true →
        submittedIdentity md5 now cfg data (some s) =
          some (s ++ specWindowSuffix now (configWindow cfg))) := by
  refine ⟨?_, ?_, ?_, ?_⟩
  · intro he
    simp [submittedIdentity, resolveFinalTaskName, he, strTruthy]
  · intro s hs he
    have hw : intOptPos (configWindow cfg) = false := by
      unfold effectiveUseDeduplication at he
      exact (Bool.or_eq_false_iff.mp he).2
    simp [submittedIdentity, resolveFinalTaskName, he, hw, strTruthy_eq_true s hs]
  · intro he
    cases hw : intOptPos (configWindow cfg) with
    | false =>
      simp [submittedIdentity, resolveFinalTaskName, he, strTruthy, generateTaskNameFromPayload,
        hw, specWindowSuffix, String.append_empty, bne_iff_ne, hm]
    | true =>
      have hne :
          md5 (deriveDataString data) ++
              ("-" ++ toString (windowBoundary now ((configWindow cfg).getD 0))) ≠ "" :=
        append_ne_empty_left _ _ hm
      simp [submittedIdentity, resolveFinalTaskName, he, strTruthy, generateTaskNameFromPayload,
        hw, specWindowSuffix, bne_iff_ne, hne, String.append_assoc]
  · intro s hs he
    cases hw : intOptPos (configWindow cfg) with
    | false =>
      simp [submittedIdentity, resolveFinalTaskName, he, hw, strTruthy_eq_true s hs,
        specWindowSuffix, String.append_empty]
    | true =>
      have hne :
          s ++ ("-" ++ toString (windowBoundary now ((configWindow cfg).getD 0))) ≠ "" :=
        append_ne_empty_left _ _ hs
      simp [submittedIdentity, resolveFinalTaskName, he, hw, strTruthy_eq_true s hs,
        strTruthy_eq_true _ hne, specWindowSuffix, bne_iff_ne, hne, String.append_assoc]

/-- Witness for C1: the automatic-name case with a 60-second window. -/
theorem dedup_policy_resolution_witness :
    submittedIdentity (fun _ => "HASH") 1700000000000 (some ⟨some 60, some false⟩)
        (Json.str "x") none
      = some ("HASH" ++ specWindowSuffix 1700000000000 (some 60)) :=
  (dedup_policy_resolution (fun _ => "HASH") 1700000000000 (some ⟨some 60, some false⟩)
      (Json.str "x") (by decide)).2.2.1 (by decide)

/-- Claim C2: schedule-time priority.  A positive deduplication window
always sets the schedule time `windowSeconds` past the current second,
regardless of any caller-supplied delay; otherwise a positive caller delay
is honored; otherwise no schedule time is set on the submitted task.
`now` is a clock reading in milliseconds, hence non-negative. -/
theorem schedule_time_priority (now : Int) (hnow : 0 ≤ now)
    (w delaySeconds : Option Int) :
    (∀ v, w = some v → 0 < v →
        submittedScheduleTime now w delaySeconds = some (now / 1000 + v)) ∧
    (intOptPos w = false → ∀ dv, delaySeconds = some dv → 0 < dv →
        submittedScheduleTime now w delaySeconds = some (now / 1000 + dv)) ∧
    (intOptPos w = false → intOptPos delaySeconds = false →
        submittedScheduleTime now w delaySeconds = none) := by
  have hq : 0 ≤ now / 1000 := Int.ediv_nonneg hnow (by norm_num)
  refine ⟨?_, ?_, ?_⟩
  · rintro v rfl hv
    have hv0 : v ≠ 0 := by omega
    have hp : intOptPos (some v) = true := by simp [intOptPos, bne_iff_ne, hv0, hv]
    have hsum : now / 1000 + v ≠ 0 := by omega
    simp [submittedScheduleTime, resolveScheduleTimeSeconds, hp, intOptTruthy,
      bne_iff_ne, hsum]
  · rintro hw dv rfl hd
    have hd0 : dv ≠ 0 := by omega
    have hp : intOptPos (some dv) = true := by simp [intOptPos, bne_iff_ne, hd0, hd]
    have hsum : now / 1000 + dv ≠ 0 := by omega
    simp [submittedScheduleTime, resolveScheduleTimeSeconds, hw, hp, intOptTruthy,
      bne_iff_ne, hsum]
  · intro hw hd
    simp [submittedScheduleTime, resolveScheduleTimeSeconds, hw, hd, intOptTruthy]

/-- Witness for C2: a 60-second window overrides a 999-second delay at
`now = 1700000000000`. -/
theorem schedule_time_priority_witness :
    submittedScheduleTime 1700000000000 (some 60) (some 999) = some 1700000060 := by
  have h :=
    (schedule_time_priority 1700000000000 (by decide) (some 60) (some 999)).1 60 rfl (by decide)
  exact h.trans (by decide)

/-- Claim C5: window boundary arithmetic.  The bucket is
`floor(nowMillis / (windowSeconds * 1000))`; two timestamps in the same
`windowSeconds`-wide bucket yield the same boundary, and advancing by
exactly `windowSeconds * 1000` milliseconds advances the boundary by
exactly one. -/
theorem window_boundary_arithmetic (now t1 t2 w : Int) (hw : 0 < w)
    (h1 : 0 ≤ t1) (h2 : 0 ≤ t2) (hsame : t1 / w = t2 / w) :
    windowBoundary now w = now / (w * 1000) ∧
    windowBoundary t1 w = windowBoundary t2 w ∧
    windowBoundary (t1 + w * 1000) w = windowBoundary t1 w + 1 := by
  have key : ∀ t : Int, 0 ≤ t → t / (w * 1000) = t / w / 1000 := by
    intro t ht
    obtain ⟨k, rfl⟩ := Int.eq_ofNat_of_zero_le (le_of_lt hw)
    obtain ⟨m, rfl⟩ := Int.eq_ofNat_of_zero_le ht
    calc ((m : Int)) / ((k : Int) * 1000)
        = ((m : Int)) / (((k * 1000 : Nat) : Int)) := by push_cast; ring_nf
      _ = (((m / (k * 1000) : Nat)) : Int) := by norm_cast
      _ = (((m / k / 1000 : Nat)) : Int) := by rw [Nat.div_div_eq_div_mul]
      _ = ((m : Int) / (k : Int)) / 1000 := by norm_cast
  refine ⟨rfl, ?_, ?_⟩
  · show t1 / (w * 1000) = t2 / (w * 1000)
    rw [key t1 h1, key t2 h2, hsame]
  · show (t1 + w * 1000) / (w * 1000) = t1 / (w * 1000) + 1
    have hne : w * 1000 ≠ 0 := by positivity
    calc (t1 + w * 1000) / (w * 1000)
        = (t1 + 1 * (w * 1000)) / (w * 1000) := by ring_nf
      _ = t1 / (w * 1000) + 1 := Int.add_mul_ediv_right t1 1 hne

/-- Witness for C5: timestamps 4ms and 5ms share the 2-second bucket, and
moving 2000ms forward advances the bucket by one. -/
theorem window_boundary_arithmetic_witness :
    windowBoundary 4 2 = windowBoundary 5 2 ∧
    windowBoundary (4 + 2 * 1000) 2 = windowBoundary 4 2 + 1 := by
  have h := window_boundary_arithmetic 0 4 5 2 (by decide) (by decide) (by decide) (by decide)
  exact ⟨h.2.1, h.2.2⟩

/-- Claim C6: identity derivation is deterministic and matches the
reference definition: with no window the generated name is the digest of
the payload itself when the payload is a plain string, otherwise of its
JSON serialization; the result does not depend on the clock, so repeated
calls agree. -/
theorem identity_derivation_deterministic
    (md5 : String → String) (data : Json) (s : String) (now1 now2 : Int) :
    generateTaskNameFromPayload md5 now1 data none = md5 (deriveDataString data) ∧
    generateTaskNameFromPayload md5 now1 data none
        = generateTaskNameFromPayload md5 now2 data none ∧
    deriveDataString (Json.str s) = s ∧
    generateTaskNameFromPayload md5 now1 (Json.str s) none = md5 s := by
  exact ⟨rfl, rfl, rfl, rfl⟩

/-- Every config produced by the factory satisfies the dedup invariant. -/
lemma mkTaskConfig_invariant (opts : TaskConfig)
    (hw : intOptPos (mkTaskConfig opts).deduplicationWindowSeconds = true) :
    (mkTaskConfig opts).useDeduplication = some true := by
  have hw2 : intOptPos opts.deduplicationWindowSeconds = true := hw
  simp [mkTaskConfig, hw2]

/-- `registrySet` preserves a property that holds of all stored configs and
of the new config. -/
lemma registrySet_forall (P : TaskConfig → Prop) (reg : List (String × TaskConfig))
    (q : String) (c : TaskConfig)
    (hreg : ∀ p ∈ reg, P p.2) (hc : P c) :
    ∀ p ∈ registrySet reg q c, P p.2 := by
  induction reg with
  | nil =>
    intro p hp
    simp [registrySet] at hp
    simp [hp, hc]
  | cons head rest ih =>
    obtain ⟨k, c0⟩ := head
    intro p hp
    rw [registrySet] at hp
    by_cases hk : k = q
    · simp [hk] at hp
      rcases hp with hp | hp
      · simp [hp, hc]
      · exact hreg p (List.mem_cons_of_mem _ hp)
    · simp [hk] at hp
      rcases hp with hp | hp
      · exact hreg p (by simp [hp])
      · exact ih (fun p hp => hreg p (List.mem_cons_of_mem _ hp)) p hp

/-- Every config reachable in a registry built by the factory walk
satisfies any property enjoyed by `mkTaskConfig` images, provided the
starting registry does. -/
lemma buildRegistryFrom_forall (P : TaskConfig → Prop)
    (hP : ∀ opts, P (mkTaskConfig opts)) :
    ∀ (defs : List (String × Option TaskConfig)) (reg : List (String × TaskConfig)),
      (∀ p ∈ reg, P p.2) → ∀ p ∈ buildRegistryFrom reg defs, P p.2 := by
  intro defs
  induction defs with
  | nil =>
    intro reg hreg p hp
    rw [buildRegistryFrom] at hp
    exact hreg p hp
  | cons head rest ih =>
    obtain ⟨q, opt⟩ := head
    intro reg hreg p hp
    cases opt with
    | none =>
      rw [buildRegistryFrom] at hp
      exact ih reg hreg p hp
    | some opts =>
      rw [buildRegistryFrom] at hp
      exact ih _ (registrySet_forall P reg q (mkTaskConfig opts) hreg (hP opts)) p hp

/-- A successful registry lookup returns a stored config. -/
lemma registryGet_mem (reg : List (String × TaskConfig)) (q : String) (c : TaskConfig)
    (h : registryGet reg q = some c) : ∃ k, (k, c) ∈ reg := by
  induction reg with
  | nil => simp [registryGet] at h
  | cons head rest ih =>
    obtain ⟨k, c0⟩ := head
    rw [registryGet] at h
    by_cases hk : k = q
    · simp [hk] at h
      exact ⟨k, by simp [h]⟩
    · simp [hk] at h
      obtain ⟨k2, hk2⟩ := ih h
      exact ⟨k2, List.mem_cons_of_mem _ hk2⟩

/-- Claim C7: TaskConfig invariant.  A config stored by the factory whose
deduplication window is positive has `useDeduplication = true`, and the
flag recomputed at each scheduling call is likewise true whenever the
window read from the config is positive. -/
theorem task_config_invariant (defs : List (String × Option TaskConfig))
    (q : String) (cfg : TaskConfig)
    (hlookup : registryGet (buildRegistry defs) q = some cfg)
    (hw : intOptPos cfg.deduplicationWindowSeconds = true) :
    cfg.useDeduplication = some true ∧
    (∀ cfg2 : Option TaskConfig, intOptPos (configWindow cfg2) = true →
        effectiveUseDeduplication cfg2 = true) := by
  constructor
  · obtain ⟨k, hmem⟩ := registryGet_mem _ _ _ hlookup
    have hall :=
      buildRegistryFrom_forall
        (fun c => intOptPos c.deduplicationWindowSeconds = true → c.useDeduplication = some true)
        mkTaskConfig_invariant defs [] (by intro p hp; simp at hp)
    exact hall (k, cfg) hmem hw
  · intro cfg2 h2
    simp [effectiveUseDeduplication, h2]

/-- Witness for C7: a definition declaring `useDeduplication: false` with a
60-second window is stored with the flag forced to true. -/
theorem task_config_invariant_witness :
    (⟨some 60, some true⟩ : TaskConfig).useDeduplication = some true ∧
    effectiveUseDeduplication (some ⟨some 60, some false⟩) = true := by
  have h :=
    task_config_invariant [("emailQueue", some ⟨some 60, some false⟩)] "emailQueue"
      ⟨some 60, some true⟩ (by decide) (by decide)
  exact ⟨h.1, h.2 (some ⟨some 60, some false⟩) (by decide)⟩

/-- An attempt that fails with a conflict message aborts the loop at once:
the rejection carries the original message, no warning is logged, and no
further attempt is made. -/
lemma pRetryLoop_conflict (q : String) (createTask : Nat → Option JsError)
    (n r : Nat) (e : JsError) (hf : createTask n = some e)
    (hc : containsSub e.message "ALREADY_EXISTS" = true) :
    pRetryLoop q createTask n r = ⟨Except.error ⟨"Error", none, e.message⟩, n, []⟩ := by
  rw [pRetryLoop, hf]
  simp [hc]

/-- A call that always fails with a non-conflict error exhausts the retry
budget: the loop rejects with that error after `r + 1` attempts, logging
only warnings. -/
lemma pRetryLoop_const_fail (q : String) (e : JsError)
    (hc : containsSub e.message "ALREADY_EXISTS" = false) :
    ∀ (r n : Nat),
      (pRetryLoop q (fun _ => some e) n r).result = Except.error e ∧
      (pRetryLoop q (fun _ => some e) n r).attempts = n + r ∧
      ∀ entry ∈ (pRetryLoop q (fun _ => some e) n r).warns,
        entry.severity = Severity.warn := by
  intro r
  induction r with
  | zero =>
    intro n
    rw [pRetryLoop]
    simp [hc]
  | succ k ih =>
    intro n
    have hk := ih (n + 1)
    rw [pRetryLoop]
    simp only [hc, Bool.false_eq_true, if_false, if_neg]
    refine ⟨hk.1, ?_, ?_⟩
    · have := hk.2.1
      omega
    · intro entry hentry
      simp at hentry
      rcases hentry with hentry | hentry
      · simp [hentry]
      · exact hk.2.2 entry hentry

/-- Claim C3: idempotent-conflict law.  When every `createTask` attempt
fails with an error whose message signals that the task identity already
exists, the retry loop aborts after exactly one attempt, the scheduling
call resolves successfully, and the event is logged at informational
severity with no error-severity entry. -/
theorem idempotent_conflict_success
    (md5 : String → String) (projectId region queueName : String)
    (reg : List (String × TaskConfig)) (now : Int) (data : Json)
    (options : Option ScheduleOptions) (e : JsError)
    (hc : containsSub e.message "ALREADY_EXISTS" = true) :
    (scheduleTask md5 projectId region reg queueName now data options
        (fun _ => some e)).result = Except.ok () ∧
    (scheduleTask md5 projectId region reg queueName now data options
        (fun _ => some e)).attempts = 1 ∧
    (∃ m, LogEntry.mk Severity.info m ∈
        (scheduleTask md5 projectId region reg queueName now data options
          (fun _ => some e)).logs) ∧
    (∀ m, LogEntry.mk Severity.error m ∉
        (scheduleTask md5 projectId region reg queueName now data options
          (fun _ => some e)).logs) := by
  have hloop := pRetryLoop_conflict queueName (fun _ => some e) 1 5 e rfl hc
  refine ⟨?_, ?_, ?_, ?_⟩ <;>
    simp [scheduleTask, hloop, hc]

/-- Witness for C3: a conflict error message yields success in one attempt
with only an informational log entry. -/
theorem idempotent_conflict_success_witness :
    (scheduleTask (fun _ => "HASH") "demo-project" "us-central1" [] "emailQueue"
        1700000000000 (Json.str "x") none
        (fun _ => some ⟨"Error", some 6, "6 ALREADY_EXISTS: task exists"⟩)).result
      = Except.ok () ∧
    (scheduleTask (fun _ => "HASH") "demo-project" "us-central1" [] "emailQueue"
        1700000000000 (Json.str "x") none
        (fun _ => some ⟨"Error", some 6, "6 ALREADY_EXISTS: task exists"⟩)).attempts = 1 := by
  have h :=
    idempotent_conflict_success (fun _ => "HASH") "demo-project" "us-central1"
      "emailQueue" [] 1700000000000 (Json.str "x") none
      ⟨"Error", some 6, "6 ALREADY_EXISTS: task exists"⟩ (by decide)
  exact ⟨h.1, h.2.1⟩

/-- Claim C4: retry bound and terminal failure.  When every `createTask`
attempt fails with a non-conflict error, the protocol makes exactly six
attempts (the initial attempt plus the configured five retries), the call
rejects with that same underlying error, and an error-severity entry is
logged. -/
theorem retry_bound_terminal_failure
    (md5 : String → String) (projectId region queueName : String)
    (reg : List (String × TaskConfig)) (now : Int) (data : Json)
    (options : Option ScheduleOptions) (e : JsError)
    (hc : containsSub e.message "ALREADY_EXISTS" = false) :
    (scheduleTask md5 projectId region reg queueName now data options
        (fun _ => some e)).attempts = 6 ∧
    (scheduleTask md5 projectId region reg queueName now data options
        (fun _ => some e)).result = Except.error e ∧
    (∃ m, LogEntry.mk Severity.error m ∈
        (scheduleTask md5 projectId region reg queueName now data options
          (fun _ => some e)).logs) := by
  have hloop := pRetryLoop_const_fail queueName e hc 5 1
  refine ⟨?_, ?_, ?_⟩ <;>
    simp [scheduleTask, hloop.1, hloop.2.1, hc]

/-- Witness for C4: a permanently unavailable transport exhausts all six
attempts and surfaces the error. -/
theorem retry_bound_terminal_failure_witness :
    (scheduleTask (fun _ => "HASH") "demo-project" "us-central1" [] "emailQueue"
        1700000000000 (Json.str "x") none
        (fun _ => some ⟨"Error", some 14, "14 UNAVAILABLE: network"⟩)).attempts = 6 ∧
    (scheduleTask (fun _ => "HASH") "demo-project" "us-central1" [] "emailQueue"
        1700000000000 (Json.str "x") none
        (fun _ => some ⟨"Error", some 14, "14 UNAVAILABLE: network"⟩)).result
      = Except.error ⟨"Error", some 14, "14 UNAVAILABLE: network"⟩ := by
  have h :=
    retry_bound_terminal_failure (fun _ => "HASH") "demo-project" "us-central1"
      "emailQueue" [] 1700000000000 (Json.str "x") none
      ⟨"Error", some 14, "14 UNAVAILABLE: network"⟩ (by decide)
  exact ⟨h.1, h.2.1⟩

/-- The test scenario payload `\x7b email: "test@example.com" \x7d`
(scheduler.test.ts line 71). -/
def scenarioPayload : Json :=
  Json.obj (JsonFields.cons "email" (Json.str "test@example.com") JsonFields.nil)

/-- Claim C8: the concrete scenario.  With a 60-second window, no caller
name, and now = 1700000000000 ms, the submitted identity is the digest of
the JSON-serialized payload followed by "-28333333"
(28333333 = floor(1700000000000 / 60000)), and the schedule time is
60 seconds from now (1700000060 = floor(1700000000000 / 1000) + 60). -/
theorem concrete_scenario (md5 : String → String) :
    Json.stringify scenarioPayload = "\x7b\"email\":\"test@example.com\"\x7d" ∧
    submittedIdentity md5 1700000000000 (some ⟨some 60, some true⟩) scenarioPayload none
      = some (md5 "\x7b\"email\":\"test@example.com\"\x7d" ++ "-28333333") ∧
    submittedScheduleTime 1700000000000 (some 60) none = some 1700000060 := by
  have hser : Json.stringify scenarioPayload = "\x7b\"email\":\"test@example.com\"\x7d" := by
    decide
  refine ⟨hser, ?_, by decide⟩
  have hds : deriveDataString scenarioPayload = "\x7b\"email\":\"test@example.com\"\x7d" := hser
  have hb : toString (windowBoundary 1700000000000 (60 : Int)) = "28333333" := by
    decide
  have happ : "-" ++ "28333333" = "-28333333" := by decide
  have hne :
      md5 "\x7b\"email\":\"test@example.com\"\x7d" ++ "-28333333" ≠ "" :=
    append_ne_empty_right _ _ (by decide)
  simp [submittedIdentity, resolveFinalTaskName, effectiveUseDeduplication, configWindow,
    boolTruthy, strTruthy, generateTaskNameFromPayload, intOptPos, hds, hb, happ, bne_iff_ne,
    hne, String.append_assoc]

/-- Claim C9: conflict detection is purely a substring test on the error
message.  A submission whose attempts all fail with error `e` succeeds
exactly when `e.message` contains "ALREADY_EXISTS", whatever the error
name or code; and any first-attempt failure with such a message ends the
call successfully after that single attempt, whatever later attempts
would do. -/
theorem conflict_detection_by_substring
    (md5 : String → String) (projectId region queueName : String)
    (reg : List (String × TaskConfig)) (now : Int) (data : Json)
    (options : Option ScheduleOptions) (e : JsError) :
    ((scheduleTask md5 projectId region reg queueName now data options
        (fun _ => some e)).result = Except.ok ()
      ↔ containsSub e.message "ALREADY_EXISTS" = true) ∧
    (∀ createTask : Nat → Option JsError, createTask 1 = some e →
      containsSub e.message "ALREADY_EXISTS" = true →
      (scheduleTask md5 projectId region reg queueName now data options
          createTask).result = Except.ok () ∧
      (scheduleTask md5 projectId region reg queueName now data options
          createTask).attempts = 1) := by
  constructor
  · cases hc : containsSub e.message "ALREADY_EXISTS" with
    | true =>
      have hloop := pRetryLoop_conflict queueName (fun _ => some e) 1 5 e rfl hc
      simp [scheduleTask, hloop, hc]
    | false =>
      have hloop := pRetryLoop_const_fail queueName e hc 5 1
      simp [scheduleTask, hloop.1, hc]
  · intro createTask hf hc
    have hloop := pRetryLoop_conflict queueName createTask 1 5 e hf hc
    constructor <;> simp [scheduleTask, hloop, hc]

/-- Witness for C9: an error of unrelated name and code whose message
happens to contain the marker is converted into success on the first
attempt. -/
theorem conflict_detection_by_substring_witness :
    (scheduleTask (fun _ => "HASH") "demo-project" "us-central1" [] "emailQueue"
        1700000000000 (Json.str "x") none
        (fun _ => some ⟨"WeirdTransportFault", some 99,
          "wrapped cause: ALREADY_EXISTS elsewhere"⟩)).result = Except.ok () ∧
    (scheduleTask (fun _ => "HASH") "demo-project" "us-central1" [] "emailQueue"
        1700000000000 (Json.str "x") none
        (fun _ => some ⟨"WeirdTransportFault", some 99,
          "wrapped cause: ALREADY_EXISTS elsewhere"⟩)).attempts = 1 := by
  have h :=
    (conflict_detection_by_substring (fun _ => "HASH") "demo-project" "us-central1"
        "emailQueue" [] 1700000000000 (Json.str "x") none
        ⟨"WeirdTransportFault", some 99, "wrapped cause: ALREADY_EXISTS elsewhere"⟩).2
      (fun _ => some ⟨"WeirdTransportFault", some 99,
        "wrapped cause: ALREADY_EXISTS elsewhere"⟩) rfl (by decide)
  exact h

/-- The resolved-and-guarded identity does not distinguish an empty caller
name from an absent one. -/
lemma submittedIdentity_empty_name (md5 : String → String) (now : Int)
    (cfg : Option TaskConfig) (data : Json) :
    submittedIdentity md5 now cfg data (some "") =
      submittedIdentity md5 now cfg data none := by
  cases hu : effectiveUseDeduplication cfg <;>
    simp [submittedIdentity, resolveFinalTaskName, hu, strTruthy]

/-- Claim C10: an empty caller-supplied task name behaves like an omitted
one: the submitted task (name field included), the caller-visible result,
and the attempt count are identical, and so is the resolved identity. -/
theorem empty_task_name_like_absent
    (md5 : String → String) (projectId region queueName : String)
    (reg : List (String × TaskConfig)) (now : Int) (data : Json)
    (delaySeconds : Option Int) (createTask : Nat → Option JsError) :
    (scheduleTask md5 projectId region reg queueName now data
        (some ⟨some "", delaySeconds⟩) createTask).task
      = (scheduleTask md5 projectId region reg queueName now data
        (some ⟨none, delaySeconds⟩) createTask).task ∧
    (scheduleTask md5 projectId region reg queueName now data
        (some ⟨some "", delaySeconds⟩) createTask).result
      = (scheduleTask md5 projectId region reg queueName now data
        (some ⟨none, delaySeconds⟩) createTask).result ∧
    (scheduleTask md5 projectId region reg queueName now data
        (some ⟨some "", delaySeconds⟩) createTask).attempts
      = (scheduleTask md5 projectId region reg queueName now data
        (some ⟨none, delaySeconds⟩) createTask).attempts ∧
    submittedIdentity md5 now (registryGet reg queueName) data (some "")
      = submittedIdentity md5 now (registryGet reg queueName) data none := by
  have hid := submittedIdentity_empty_name md5 now (registryGet reg queueName) data
  cases hres : (pRetryLoop queueName createTask 1 5).result with
  | ok u =>
    refine ⟨?_, ?_, ?_, hid⟩ <;> simp [scheduleTask, hres, hid]
  | error e =>
    cases hc : containsSub e.message "ALREADY_EXISTS" <;>
      refine ⟨?_, ?_, ?_, hid⟩ <;> simp [scheduleTask, hres, hc, hid]

end TypedTasks
